import Mathlib

/-
Verification of the scheduling core of a CalDAV-to-Telegram reminder daemon
(src/app.py). Machine time instants are modelled as integers; vobject
components (`valarm`, `vevent`) are modelled by their object identities
(`alarmId`, `eventId`), since the Python code compares and orders them only
through the `@dataclass(order=True)` tuple comparison, which falls back to
the component objects themselves. Operations that can raise a Python
exception are modelled with `Option`: `none` is a raised exception.
-/

namespace CaldavBot

/-- One alarm instance resolved to an absolute fire instant
(`Reminder` dataclass, app.py lines 42-47). `dt` is the fire instant;
`alarmId` and `eventId` stand for the identities of the `valarm` and
`vevent` component objects carried by the dataclass. -/
structure Reminder where
  dt : Int
  alarmId : Nat
  eventId : Nat
deriving DecidableEq

/-- The comparison generated by `@dataclass(order=True)` on `Reminder`:
lexicographic tuple comparison of `(dt, valarm, vevent)`. When the fire
instants differ it short-circuits on `dt`. When they tie, Python proceeds
to order the vobject component objects, which define no ordering, so a
`TypeError` is raised (modelled as `none`) unless the two reminders are
the very same tuple, in which case `a < b` is `False`. -/
def remLt (a b : Reminder) : Option Bool :=
  if a.dt < b.dt then some true
  else if b.dt < a.dt then some false
  else if a = b then some false
  else none

/-- Insertion of one reminder into an already sorted list using `remLt`,
propagating a comparison `TypeError` as `none`. Together with `sortR` this
models `reminders.sort()` (app.py line 169): a stable comparison sort that
raises as soon as two distinct reminders with tied fire instants are
compared. -/
def insertR (r : Reminder) : List Reminder → Option (List Reminder)
  | [] => some [r]
  | x :: xs =>
    match remLt r x with
    | none => none
    | some true => some (r :: x :: xs)
    | some false =>
      match insertR r xs with
      | none => none
      | some t => some (x :: t)

/-- `list.sort()` on reminders (app.py line 169), modelled as a comparison
sort in the `Option` monad: `none` when the underlying tuple comparison
raises `TypeError`. -/
def sortR : List Reminder → Option (List Reminder)
  | [] => some []
  | r :: rs =>
    match sortR rs with
    | none => none
    | some t => insertR r t

/-- One VALARM component: its object identity and its relative trigger
offset (`valarm.trigger.value`, possibly negative). -/
structure Alarm where
  alarmId : Nat
  trigger : Int
deriving DecidableEq

/-- One VEVENT as returned by the calendar search: object identity,
normalized start instant (`vevent.dtstart.value` after the timezone
normalization of app.py lines 130-138), and its alarm components. -/
structure RawVEvent where
  eventId : Nat
  dtstart : Int
  alarms : List Alarm
deriving DecidableEq

/-- The `Event` dataclass (app.py lines 50-54): the vevent plus the
reminders built for it during `fetch_events`. -/
structure Event where
  vevent : RawVEvent
  reminders : List Reminder
deriving DecidableEq

/-- The reminder-building loop of `fetch_events` (app.py lines 142-144):
for each valarm, `alarm_dt = dtstart + valarm.trigger.value`. -/
def buildReminders (v : RawVEvent) : List Reminder :=
  v.alarms.map (fun a => { dt := v.dtstart + a.trigger, alarmId := a.alarmId, eventId := v.eventId })

/-- Construction of one `Event` record in `fetch_events` (app.py lines
140-144). -/
def buildEvent (v : RawVEvent) : Event :=
  { vevent := v, reminders := buildReminders v }

/-- Concatenation of the per-event reminder lists in the iteration order of
the nested loops of `extract_reminders` (app.py lines 164-167). -/
def allReminders : List Event → List Reminder
  | [] => []
  | e :: es => e.reminders ++ allReminders es

/-- The filtering loop of `extract_reminders` (app.py lines 164-167).
`datetime.now(...)` is evaluated anew on every iteration, which the model
makes explicit with a clock stream: the check of the k-th candidate
reminder compares against `clock k`. A reminder is kept when
`reminder.dt >= now`. -/
def filterFuture (clock : Nat → Int) : List Reminder → Nat → List Reminder
  | [], _ => []
  | r :: rs, k =>
    if clock k ≤ r.dt then r :: filterFuture clock rs (k + 1)
    else filterFuture clock rs (k + 1)

/-- `CaldavHandler.extract_reminders` (app.py lines 157-176): filter the
events' reminders against the (re-read) clock, then `sort()`. `none` is
the `TypeError` raised by sorting reminders with tied fire instants. -/
def extract_reminders (events : List Event) (clock : Nat → Int) : Option (List Reminder) :=
  sortR (filterFuture clock (allReminders events) 0)

/-- `extract_reminders` run under a clock that does not advance during the
extraction: the single-`now` reading used by the synchronization model. -/
def extract_remindersAt (events : List Event) (now : Int) : Option (List Reminder) :=
  extract_reminders events (fun _ => now)

/-- Number of candidate reminders examined by one extraction run, i.e. the
number of clock reads it performs. -/
def reminderCount (events : List Event) : Nat :=
  (allReminders events).length

/-- One calendar object as cached by the worker; only its `id` is consulted
by the sync cycle's subscription filter. -/
structure Cal where
  id : String
deriving DecidableEq

/-- The configuration fields consumed by the scheduling core (`Config`,
app.py lines 24-39): `CALENDAR_IDS` is `None` when the environment variable
is unset, otherwise the `;`-split list of ids. -/
structure Config where
  CALENDAR_IDS : Option (List String)
  SYNC_INTERVAL_IN_SEC : Int

/-- The worker's mutable state (app.py lines 182-190). `reminder_task`
holds the task handle stored in `self.reminder_task` (by id);
`armed` is the set of live (created, not yet fired, not cancelled)
wake-timer tasks, each with the deadline it was armed for; `nextTaskId`
is a fresh-name supply for created tasks; `cals` is the calendar list
cache (`None` until first fetched). -/
structure WorkerState where
  sorted_reminders : List Reminder
  reminder_task : Option Nat
  armed : List (Nat × Int)
  nextTaskId : Nat
  cals : Option (List Cal)

/-- `task.cancel()` on the armed-task ledger: drops the task with the
given id; a no-op if it already fired or was never armed. -/
def cancelTask (armed : List (Nat × Int)) (t : Nat) : List (Nat × Int) :=
  armed.filter (fun p => p.1 != t)

/-- `Worker.scheduleReminderTask` (app.py lines 206-212): cancel the task
referenced by `self.reminder_task` if one is referenced, then, if the queue
is non-empty, create a new wake-timer task for the first (earliest)
reminder's fire instant and store its handle. The handle is not cleared
when the queue is empty. -/
def scheduleReminderTask (s : WorkerState) : WorkerState :=
  let s1 : WorkerState :=
    match s.reminder_task with
    | some t => { s with armed := cancelTask s.armed t }
    | none => s
  match s1.sorted_reminders with
  | [] => s1
  | r :: _ =>
    { s1 with
      reminder_task := some s1.nextTaskId
      armed := s1.armed ++ [(s1.nextTaskId, r.dt)]
      nextTaskId := s1.nextTaskId + 1 }

/-- The `while await self.process_next_reminder(): pass` loop of
`Worker.process_reminders` together with `Worker.process_next_reminder`
(app.py lines 240-262), acting on the queue. Each iteration with a
non-empty queue first does `pop(0)`, and only then checks
`reminder.dt <= now`: a popped reminder that is not yet due is dropped
without being re-queued. `sendOk r = false` models `bot.send_message`
raising; the exception propagates, ending the loop abnormally.
Returns (final queue, dispatched reminders, loop ended without raising). -/
def drainLoop (sendOk : Reminder → Bool) (now : Int) :
    List Reminder → List Reminder × List Reminder × Bool
  | [] => ([], [], true)
  | r :: rest =>
    if r.dt ≤ now then
      if sendOk r then
        match drainLoop sendOk now rest with
        | (q, d, c) => (q, r :: d, c)
      else (rest, [], false)
    else (rest, [], true)

/-- Result of one dispatch-handler invocation: the worker state afterwards,
the reminders actually handed to the notification sink, and whether the
handler ran to completion (`false` when a send exception escaped it). -/
structure DrainResult where
  state : WorkerState
  dispatched : List Reminder
  completed : Bool

/-- `Worker.process_reminders` (app.py lines 240-250): clear
`self.reminder_task`, drain due reminders, then re-arm via
`scheduleReminderTask` — unless a send exception escaped the loop, in
which case the handler dies before re-arming (only `CancelledError` is
caught there). -/
def process_reminders (sendOk : Reminder → Bool) (now : Int) (s : WorkerState) : DrainResult :=
  let s0 : WorkerState := { s with reminder_task := none }
  match drainLoop sendOk now s0.sorted_reminders with
  | (q, d, c) =>
    let s1 : WorkerState := { s0 with sorted_reminders := q }
    if c then { state := scheduleReminderTask s1, dispatched := d, completed := true }
    else { state := s1, dispatched := d, completed := false }

/-- The wake-timer elapsing: the fired task leaves the live-task ledger and
its coroutine runs `process_reminders`. -/
def fireTimer (sendOk : Reminder → Bool) (now : Int) (s : WorkerState) : DrainResult :=
  let armed1 : List (Nat × Int) :=
    match s.reminder_task with
    | some t => cancelTask s.armed t
    | none => s.armed
  process_reminders sendOk now { s with armed := armed1 }

/-- `list(filter(lambda x: x.id in self.config.CALENDAR_IDS, self.cals))`
(app.py line 224). When `CALENDAR_IDS` is `None`, the membership test
`x.id in None` raises `TypeError` on the first element (`none`); over an
empty calendar list the predicate is never called, so the result is `[]`
without an error. -/
def filterCals (ids : Option (List String)) : List Cal → Option (List Cal)
  | [] => some []
  | c :: cs =>
    match ids with
    | none => none
    | some l =>
      match filterCals ids cs with
      | none => none
      | some rest => some (if c.id ∈ l then c :: rest else rest)

/-- Body of `Worker.sync` from line 224 on, once a cached calendar list
`cl` is available. `fetchEv` is the external `fetch_events` call: `none`
models it raising. Returns the state after the `try`/`except` blocks
together with the local variable `next_sync_dt` (app.py line 232), which
remains unbound (`none`) on every path that raises or returns before
line 232 is executed. -/
def syncWithCals (cfg : Config) (fetchEv : List Cal → Option (List Event))
    (now : Int) (s : WorkerState) (cl : List Cal) : WorkerState × Option Int :=
  match filterCals cfg.CALENDAR_IDS cl with
  | none => (s, none)
  | some sel =>
    match fetchEv sel with
    | none => (s, none)
    | some events =>
      match events with
      | [] => (s, some (now + cfg.SYNC_INTERVAL_IN_SEC))
      | _ :: _ =>
        match extract_remindersAt events now with
        | none => (s, none)
        | some newList =>
          if newList = s.sorted_reminders then
            (s, some (now + cfg.SYNC_INTERVAL_IN_SEC))
          else
            (scheduleReminderTask { s with sorted_reminders := newList },
             some (now + cfg.SYNC_INTERVAL_IN_SEC))

/-- Outcome of one `Worker.sync` invocation: the state afterwards and the
deadline of the next sync task created by the `finally` block —
`none` when no next cycle was scheduled because the `finally` block's
reference to the local `next_sync_dt` raised `UnboundLocalError` (the
variable is only assigned on the full-success path, app.py line 232). -/
structure SyncResult where
  state : WorkerState
  nextSync : Option Int

/-- `Worker.sync` (app.py lines 214-238). `fetchCals` is the external
`fetch_calendars` result (consulted only when the cache is cold); the
early `return` on a `None` calendar list, like every exception path,
reaches the `finally` block with `next_sync_dt` unbound, so no next sync
task is created. -/
def sync (cfg : Config) (fetchCals : Option (List Cal))
    (fetchEv : List Cal → Option (List Event)) (now : Int) (s : WorkerState) : SyncResult :=
  match s.cals with
  | some cl =>
    match syncWithCals cfg fetchEv now s cl with
    | (s1, nd) => { state := s1, nextSync := nd }
  | none =>
    match fetchCals with
    | none => { state := s, nextSync := none }
    | some cl =>
      match syncWithCals cfg fetchEv now { s with cals := some cl } cl with
      | (s1, nd) => { state := s1, nextSync := nd }

/-- One scheduler-level step: either a sync cycle runs or an armed
wake-timer fires and its dispatch handler runs. These are the only two
code paths that touch the queue or the timer. -/
inductive WOp where
  | wsync (cfg : Config) (fetchCals : Option (List Cal))
      (fetchEv : List Cal → Option (List Event)) (now : Int)
  | wfire (sendOk : Reminder → Bool) (now : Int)

/-- Apply one scheduler step to the worker state. -/
def applyOp (s : WorkerState) : WOp → WorkerState
  | WOp.wsync cfg fc fe now => (sync cfg fc fe now s).state
  | WOp.wfire ok now => (fireTimer ok now s).state

/-- Apply a sequence of scheduler steps. -/
def applyOps (s : WorkerState) : List WOp → WorkerState
  | [] => s
  | op :: ops => applyOps (applyOp s op) ops

/-- Timer ledger invariant: at most one live wake-timer task, and any live
task is the one referenced by `self.reminder_task`. -/
def timerInv (s : WorkerState) : Prop :=
  s.armed.length ≤ 1 ∧ ∀ p ∈ s.armed, s.reminder_task = some p.1

/-- Worker state right after `Worker.__init__` (app.py lines 182-190). -/
def initState : WorkerState :=
  { sorted_reminders := [], reminder_task := none, armed := [], nextTaskId := 0, cals := none }

/-- A calendar named like a typical subscription entry. -/
def cal0 : Cal := { id := "work" }

/-- A configuration subscribing to `cal0` with the default 1800 s cadence. -/
def cfg0 : Config := { CALENDAR_IDS := some ["work"], SYNC_INTERVAL_IN_SEC := 1800 }

/-- A configuration with `CALENDAR_IDS` unset. -/
def cfgNone : Config := { CALENDAR_IDS := none, SYNC_INTERVAL_IN_SEC := 1800 }

/-- A pending reminder used by concrete scenarios. -/
def remA : Reminder := { dt := 100, alarmId := 1, eventId := 1 }

/-- A steady-state worker: calendars cached, one pending reminder, one
armed wake-timer for it. -/
def st1 : WorkerState :=
  { sorted_reminders := [remA], reminder_task := some 0, armed := [(0, 100)],
    nextTaskId := 1, cals := some [cal0] }

/-- A reminder due at instant 0. -/
def rem0 : Reminder := { dt := 0, alarmId := 1, eventId := 1 }

/-- A reminder due at instant 1. -/
def rem1 : Reminder := { dt := 1, alarmId := 2, eventId := 2 }

/-- A reminder due at instant 5. -/
def rem5 : Reminder := { dt := 5, alarmId := 2, eventId := 2 }

/-- A reminder due at instant 10. -/
def rem10 : Reminder := { dt := 10, alarmId := 3, eventId := 3 }

/-- A worker holding the queue `[t1, t2, t3] = [0, 5, 10]` with a timer
armed for the first element. -/
def st2 : WorkerState :=
  { sorted_reminders := [rem0, rem5, rem10], reminder_task := some 4, armed := [(4, 0)],
    nextTaskId := 5, cals := some [cal0] }

/-- A worker holding two due reminders with a timer armed for the first. -/
def st3 : WorkerState :=
  { sorted_reminders := [rem0, rem1], reminder_task := some 7, armed := [(7, 0)],
    nextTaskId := 8, cals := some [cal0] }

/-- A worker with cached calendars and nothing pending. -/
def stC9 : WorkerState :=
  { sorted_reminders := [], reminder_task := none, armed := [], nextTaskId := 0,
    cals := some [cal0] }

/-- An event whose single alarm fires at instant 600. -/
def vA : RawVEvent := { eventId := 1, dtstart := 600, alarms := [{ alarmId := 1, trigger := 0 }] }

/-- A second, distinct event whose single alarm also fires at instant 600. -/
def vB : RawVEvent := { eventId := 2, dtstart := 600, alarms := [{ alarmId := 2, trigger := 0 }] }

/-- An event with two alarms, firing at instants 5 and 6. -/
def vC8 : RawVEvent :=
  { eventId := 1, dtstart := 0,
    alarms := [{ alarmId := 1, trigger := 5 }, { alarmId := 2, trigger := 6 }] }

/-- A clock frozen at instant 0. -/
def clk1 : Nat → Int := fun _ => 0

/-- A clock that reads 0 at extraction start and 7 on every later read. -/
def clk2 : Nat → Int := fun k => match k with | 0 => 0 | _ => 7

/-- An event whose single alarm has a negative offset: start 100,
trigger -5, so the reminder fires at 95. -/
def vW : RawVEvent := { eventId := 3, dtstart := 100, alarms := [{ alarmId := 4, trigger := -5 }] }

/-- The remote event behind `remA` and `st1`, as re-parsed by a later
fetch: identical start instant, trigger offset and display content —
hence a value-equal reminder firing at the same instant 100 — but carried
by freshly parsed vobject component objects, i.e. fresh object identities
(`calendar.search` builds new `vobject_instance` trees on every fetch). -/
def vFresh : RawVEvent :=
  { eventId := 9, dtstart := 100, alarms := [{ alarmId := 8, trigger := 0 }] }

/-- A clock that reads 0 on the first two reads and 99 afterwards; it
agrees with `clk1` on every read an extraction over `vC8` performs. -/
def clk3 : Nat → Int := fun k => match k with | 0 => 0 | 1 => 0 | _ => 99

theorem remLt_true {a b : Reminder} (h : remLt a b = some true) : a.dt < b.dt := by
  unfold remLt at h
  split_ifs at h <;> simp_all

theorem remLt_false {a b : Reminder} (h : remLt a b = some false) : b.dt ≤ a.dt := by
  unfold remLt at h
  split_ifs at h <;> simp_all

theorem insertR_mem (r : Reminder) (l : List Reminder) :
    ∀ l2, insertR r l = some l2 → ∀ y ∈ l2, y = r ∨ y ∈ l := by
  induction l with
  | nil =>
    intro l2 h y hy
    simp only [insertR, Option.some.injEq] at h
    subst h
    simp only [List.mem_singleton] at hy
    exact Or.inl hy
  | cons x xs ih =>
    intro l2 h y hy
    simp only [insertR] at h
    cases hLt : remLt r x with
    | none => rw [hLt] at h; exact absurd h (by simp)
    | some b =>
      rw [hLt] at h
      cases b with
      | true =>
        simp only [Option.some.injEq] at h
        subst h
        rcases List.mem_cons.mp hy with hy | hy
        · exact Or.inl hy
        · exact Or.inr hy
      | false =>
        cases hIns : insertR r xs with
        | none => rw [hIns] at h; exact absurd h (by simp)
        | some t =>
          rw [hIns] at h
          simp only [Option.some.injEq] at h
          subst h
          rcases List.mem_cons.mp hy with hy | hy
          · subst hy; exact Or.inr (List.mem_cons_self _ _)
          · rcases ih t hIns y hy with h1 | h1
            · exact Or.inl h1
            · exact Or.inr (List.mem_cons_of_mem x h1)

theorem insertR_sorted (r : Reminder) (l : List Reminder)
    (hs : List.Sorted (fun a b : Reminder => a.dt ≤ b.dt) l) :
    ∀ l2, insertR r l = some l2 → List.Sorted (fun a b : Reminder => a.dt ≤ b.dt) l2 := by
  induction l with
  | nil =>
    intro l2 h
    simp only [insertR, Option.some.injEq] at h
    subst h
    simp
  | cons x xs ih =>
    intro l2 h
    simp only [insertR] at h
    rw [List.sorted_cons] at hs
    cases hLt : remLt r x with
    | none => rw [hLt] at h; exact absurd h (by simp)
    | some b =>
      rw [hLt] at h
      cases b with
      | true =>
        simp only [Option.some.injEq] at h
        subst h
        have hrx : r.dt < x.dt := remLt_true hLt
        rw [List.sorted_cons]
        refine ⟨?_, ?_⟩
        · intro y hy
          rcases List.mem_cons.mp hy with hy | hy
          · subst hy; exact le_of_lt hrx
          · exact le_trans (le_of_lt hrx) (hs.1 y hy)
        · rw [List.sorted_cons]; exact hs
      | false =>
        cases hIns : insertR r xs with
        | none => rw [hIns] at h; exact absurd h (by simp)
        | some t =>
          rw [hIns] at h
          simp only [Option.some.injEq] at h
          subst h
          have hxr : x.dt ≤ r.dt := remLt_false hLt
          rw [List.sorted_cons]
          refine ⟨?_, ih hs.2 t hIns⟩
          intro y hy
          rcases insertR_mem r xs t hIns y hy with h1 | h1
          · subst h1; exact hxr
          · exact hs.1 y h1

theorem sortR_mem (l : List Reminder) :
    ∀ l2, sortR l = some l2 → ∀ y ∈ l2, y ∈ l := by
  induction l with
  | nil =>
    intro l2 h y hy
    simp only [sortR, Option.some.injEq] at h
    subst h
    simp at hy
  | cons x xs ih =>
    intro l2 h y hy
    simp only [sortR] at h
    cases hS : sortR xs with
    | none => rw [hS] at h; exact absurd h (by simp)
    | some t =>
      rw [hS] at h
      rcases insertR_mem x t l2 h y hy with h1 | h1
      · subst h1; exact List.mem_cons_self _ _
      · exact List.mem_cons_of_mem x (ih t hS y h1)

theorem sortR_sorted (l : List Reminder) :
    ∀ l2, sortR l = some l2 → List.Sorted (fun a b : Reminder => a.dt ≤ b.dt) l2 := by
  induction l with
  | nil =>
    intro l2 h
    simp only [sortR, Option.some.injEq] at h
    subst h
    simp
  | cons x xs ih =>
    intro l2 h
    simp only [sortR] at h
    cases hS : sortR xs with
    | none => rw [hS] at h; exact absurd h (by simp)
    | some t =>
      rw [hS] at h
      exact insertR_sorted x t (ih t hS) l2 h

theorem filterFuture_const_mem (now : Int) (l : List Reminder) :
    ∀ k y, y ∈ filterFuture (fun _ => now) l k → y ∈ l ∧ now ≤ y.dt := by
  induction l with
  | nil => intro k y hy; simp [filterFuture] at hy
  | cons r rs ih =>
    intro k y hy
    simp only [filterFuture] at hy
    split at hy
    case isTrue hn =>
      rcases List.mem_cons.mp hy with hy | hy
      · subst hy; exact ⟨List.mem_cons_self _ _, hn⟩
      · rcases ih (k + 1) y hy with ⟨h1, h2⟩
        exact ⟨List.mem_cons_of_mem r h1, h2⟩
    case isFalse hn =>
      rcases ih (k + 1) y hy with ⟨h1, h2⟩
      exact ⟨List.mem_cons_of_mem r h1, h2⟩

theorem allReminders_mem (es : List Event) :
    ∀ y ∈ allReminders es, ∃ e ∈ es, y ∈ e.reminders := by
  induction es with
  | nil => intro y hy; simp [allReminders] at hy
  | cons e es ih =>
    intro y hy
    simp only [allReminders] at hy
    rcases List.mem_append.mp hy with hy | hy
    · exact ⟨e, List.mem_cons_self e es, hy⟩
    · rcases ih y hy with ⟨e1, he1, hy1⟩
      exact ⟨e1, List.mem_cons_of_mem e he1, hy1⟩

theorem buildReminders_mem (v : RawVEvent) (y : Reminder) (hy : y ∈ buildReminders v) :
    ∃ a ∈ v.alarms, y.dt = v.dtstart + a.trigger ∧ y.alarmId = a.alarmId ∧
      y.eventId = v.eventId := by
  simp only [buildReminders, List.mem_map] at hy
  rcases hy with ⟨a, ha, rfl⟩
  exact ⟨a, ha, rfl, rfl, rfl⟩

/-- C6: whenever extraction returns normally on events built by
`fetch_events`, the returned list is sorted non-decreasing by fire
instant, every element's fire instant is ≥ now, and each fire instant is
the owning event's start plus its alarm's relative offset. -/
theorem extract_sorted_future_offsets (raws : List RawVEvent) (now : Int) (l : List Reminder)
    (h : extract_remindersAt (raws.map buildEvent) now = some l) :
    List.Sorted (fun a b : Reminder => a.dt ≤ b.dt) l ∧
    (∀ r ∈ l, now ≤ r.dt) ∧
    (∀ r ∈ l, ∃ v ∈ raws, ∃ a ∈ v.alarms,
        r.dt = v.dtstart + a.trigger ∧ r.alarmId = a.alarmId ∧ r.eventId = v.eventId) := by
  unfold extract_remindersAt extract_reminders at h
  refine ⟨sortR_sorted _ l h, ?_, ?_⟩
  · intro r hr
    exact (filterFuture_const_mem now _ 0 r (sortR_mem _ l h r hr)).2
  · intro r hr
    have h2 := (filterFuture_const_mem now _ 0 r (sortR_mem _ l h r hr)).1
    rcases allReminders_mem _ r h2 with ⟨e, he, hre⟩
    rcases List.mem_map.mp he with ⟨v, hv, rfl⟩
    rcases buildReminders_mem v r hre with ⟨a, ha, h3⟩
    exact ⟨v, hv, a, ha, h3⟩

/-- C6 witness: extraction over the single event `vW` at now = 0 returns
the one reminder firing at 95 = 100 + (-5), and the theorem's conclusions
hold for it. -/
theorem extract_sorted_future_offsets_check :
    List.Sorted (fun a b : Reminder => a.dt ≤ b.dt)
      [({ dt := 95, alarmId := 4, eventId := 3 } : Reminder)] ∧
    (∀ r ∈ [({ dt := 95, alarmId := 4, eventId := 3 } : Reminder)], (0 : Int) ≤ r.dt) ∧
    (∀ r ∈ [({ dt := 95, alarmId := 4, eventId := 3 } : Reminder)], ∃ v ∈ [vW], ∃ a ∈ v.alarms,
        r.dt = v.dtstart + a.trigger ∧ r.alarmId = a.alarmId ∧ r.eventId = v.eventId) :=
  extract_sorted_future_offsets [vW] 0 [{ dt := 95, alarmId := 4, eventId := 3 }] rfl

/-- C1: a sync cycle in which the event fetch raises leaves the held
reminder queue unchanged, but schedules no next sync cycle: every
exception path reaches the `finally` block with the local `next_sync_dt`
still unbound, so the block itself raises `UnboundLocalError` and the
resync cadence dies, contrary to the claim that the next cycle is always
scheduled at now + interval. -/
theorem sync_fetch_error_kills_cadence :
    (sync cfg0 (some [cal0]) (fun _ => none) 0 st1).state = st1 ∧
    (sync cfg0 (some [cal0]) (fun _ => none) 0 st1).nextSync = none :=
  ⟨rfl, rfl⟩

/-- C2: on the queue `[0, 5, 10]` with now = 5, the dispatch drain pops
all three elements — `process_next_reminder` pops before checking
dueness, so the not-yet-due third reminder is removed and dropped — and
therefore dispatches the first two but leaves an empty queue and no
re-armed timer, contrary to the claim that exactly the due prefix is
removed and the timer is re-armed for the third element. -/
theorem drain_drops_first_undue_reminder :
    (fireTimer (fun _ => true) 5 st2).dispatched = [rem0, rem5] ∧
    (fireTimer (fun _ => true) 5 st2).state.sorted_reminders = [] ∧
    (fireTimer (fun _ => true) 5 st2).state.armed = [] :=
  ⟨rfl, rfl, rfl⟩

/-- C3: when sending the first due reminder raises, the exception escapes
the dispatch handler (only `CancelledError` is caught): the failed
reminder is popped and not re-queued, but the second due reminder is
neither dispatched nor is the wake-timer re-armed — the drain aborts,
contrary to the claim that the failure is logged and dispatch of the
remaining due reminders proceeds followed by the normal reschedule. -/
theorem send_failure_aborts_drain :
    (fireTimer (fun r => r.alarmId != 1) 5 st3).dispatched = [] ∧
    (fireTimer (fun r => r.alarmId != 1) 5 st3).state.sorted_reminders = [rem1] ∧
    (fireTimer (fun r => r.alarmId != 1) 5 st3).completed = false ∧
    (fireTimer (fun r => r.alarmId != 1) 5 st3).state.armed = [] :=
  ⟨rfl, rfl, rfl, rfl⟩

/-- C5: two reminders from distinct events with tied fire instants make
`reminders.sort()` raise: the dataclass tuple comparison ties on `dt` and
falls through to ordering the vobject components, which support no
ordering, so extraction raises `TypeError` instead of producing a total
order, and the enclosing sync cycle aborts without scheduling a next
cycle — contrary to the claim that ties are handled without runtime
failure and both reminders are dispatched. -/
theorem tied_reminders_extraction_raises :
    extract_remindersAt [buildEvent vA, buildEvent vB] 0 = none ∧
    (sync cfg0 (some [cal0]) (fun _ => some [buildEvent vA, buildEvent vB]) 0 st1).nextSync
      = none :=
  ⟨rfl, rfl⟩

/-- C8 counterexample: two runs over the same event list whose clocks
agree at extraction start (read index 0) but differ at a later read
produce different reminder lists, because the extraction filter re-reads
the clock for every candidate reminder instead of evaluating now once. -/
theorem extract_depends_on_later_clock_reads :
    clk1 0 = clk2 0 ∧
    extract_reminders [buildEvent vC8] clk1 ≠ extract_reminders [buildEvent vC8] clk2 := by
  refine ⟨rfl, ?_⟩
  have h1 : extract_reminders [buildEvent vC8] clk1 =
      some [{ dt := 5, alarmId := 1, eventId := 1 }, { dt := 6, alarmId := 2, eventId := 1 }] :=
    rfl
  have h2 : extract_reminders [buildEvent vC8] clk2 =
      some [{ dt := 5, alarmId := 1, eventId := 1 }] := rfl
  rw [h1, h2]
  simp

/-- C9: with `CALENDAR_IDS` unset (`None`) and a non-empty cached calendar
list, the subscription filter raises `TypeError` (`x.id in None`); the
sync cycle aborts through its exception handler with the state unchanged
and no next cycle scheduled, contrary to the claim that the filter yields
the empty selection and the cycle proceeds normally without an error. -/
theorem none_calendar_ids_raises :
    filterCals none [cal0] = none ∧
    (sync cfgNone none (fun _ => some []) 0 stC9).state = stC9 ∧
    (sync cfgNone none (fun _ => some []) 0 stC9).nextSync = none :=
  ⟨rfl, rfl, rfl⟩

theorem sync_cached (cfg : Config) (fetchCals : Option (List Cal))
    (fetchEv : List Cal → Option (List Event)) (now : Int) (s : WorkerState) (cl : List Cal)
    (hcals : s.cals = some cl) :
    sync cfg fetchCals fetchEv now s =
      { state := (syncWithCals cfg fetchEv now s cl).1,
        nextSync := (syncWithCals cfg fetchEv now s cl).2 } := by
  unfold sync
  rw [hcals]

theorem syncWithCals_of_fetch (cfg : Config) (fetchEv : List Cal → Option (List Event))
    (now : Int) (s : WorkerState) (cl sel : List Cal) (events : List Event)
    (hsel : filterCals cfg.CALENDAR_IDS cl = some sel)
    (hev : fetchEv sel = some events) :
    syncWithCals cfg fetchEv now s cl =
      (match events with
       | [] => (s, some (now + cfg.SYNC_INTERVAL_IN_SEC))
       | _ :: _ =>
         match extract_remindersAt events now with
         | none => (s, none)
         | some newList =>
           if newList = s.sorted_reminders then
             (s, some (now + cfg.SYNC_INTERVAL_IN_SEC))
           else
             (scheduleReminderTask { s with sorted_reminders := newList },
              some (now + cfg.SYNC_INTERVAL_IN_SEC))) := by
  unfold syncWithCals
  simp only [hsel, hev]
  cases events <;> rfl

/-- C4: a re-fetched reminder list that is value-equal to the held queue
still triggers a queue replacement and a timer cancel plus re-arm: the
comparison at app.py line 228 is the dataclass equality over
`(dt, valarm, vevent)`, and vobject components define no value equality,
so they compare by object identity — which every fresh fetch breaks. The
worker `st1` holds the reminder firing at 100 with an armed timer (task
0); re-fetching the same remote event (`vFresh`, same fire instant 100,
fresh component identities) replaces the queue, cancels timer task 0 and
arms a new task 1 for the very same instant, contrary to the claimed
no-reprogram idempotence. -/
theorem refetch_value_equal_reschedules :
    ({ dt := 100, alarmId := 8, eventId := 9 } : Reminder).dt = remA.dt ∧
    (sync cfg0 none (fun _ => some [buildEvent vFresh]) 0 st1).state.sorted_reminders
      = [{ dt := 100, alarmId := 8, eventId := 9 }] ∧
    (sync cfg0 none (fun _ => some [buildEvent vFresh]) 0 st1).state.armed = [(1, 100)] ∧
    (sync cfg0 none (fun _ => some [buildEvent vFresh]) 0 st1).state.reminder_task = some 1 ∧
    (sync cfg0 none (fun _ => some [buildEvent vFresh]) 0 st1).state.nextTaskId = 2 :=
  ⟨rfl, rfl, rfl, rfl, rfl⟩

/-- C10: a sync cycle whose event fetch succeeds with an empty event list
leaves the worker state — held queue, timer handle, armed-timer ledger
and cached calendar list — entirely unchanged, and the next cycle is
scheduled normally at now + interval. -/
theorem sync_empty_fetch_noop (cfg : Config) (fetchCals : Option (List Cal))
    (fetchEv : List Cal → Option (List Event)) (now : Int) (s : WorkerState)
    (cl sel : List Cal)
    (hcals : s.cals = some cl)
    (hsel : filterCals cfg.CALENDAR_IDS cl = some sel)
    (hev : fetchEv sel = some []) :
    (sync cfg fetchCals fetchEv now s).state = s ∧
    (sync cfg fetchCals fetchEv now s).nextSync = some (now + cfg.SYNC_INTERVAL_IN_SEC) := by
  rw [sync_cached cfg fetchCals fetchEv now s cl hcals,
      syncWithCals_of_fetch cfg fetchEv now s cl sel [] hsel hev]
  exact ⟨rfl, rfl⟩

/-- C10 witness: an empty fetch against the steady-state worker `st1`
changes nothing and schedules the next sync for instant 1800. -/
theorem sync_empty_fetch_noop_check :
    (sync cfg0 none (fun _ => some []) 0 st1).state = st1 ∧
    (sync cfg0 none (fun _ => some []) 0 st1).nextSync = some 1800 :=
  sync_empty_fetch_noop cfg0 none (fun _ => some []) 0 st1 [cal0] [cal0] rfl rfl rfl

theorem filterFuture_congr (c1 c2 : Nat → Int) :
    ∀ (l : List Reminder) (k : Nat),
      (∀ j, j < l.length → c1 (k + j) = c2 (k + j)) →
      filterFuture c1 l k = filterFuture c2 l k := by
  intro l
  induction l with
  | nil => intro k h; rfl
  | cons r rs ih =>
    intro k h
    have h0 : c1 k = c2 k := by
      have h1 := h 0 (by simp)
      simpa using h1
    have htail : ∀ j, j < rs.length → c1 (k + 1 + j) = c2 (k + 1 + j) := by
      intro j hj
      have h1 := h (j + 1) (by simp only [List.length_cons]; omega)
      rw [show k + 1 + j = k + (j + 1) by omega]
      exact h1
    simp only [filterFuture]
    rw [h0, ih (k + 1) htail]

/-- C8 amended: extraction is deterministic in the event list together
with the sequence of clock values it observes (one read per candidate
reminder, not a single read at start): two runs whose clocks agree on
every read index up to the number of candidate reminders — in particular
any two runs during which the clock does not advance — produce identical
reminder lists. -/
theorem extract_deterministic_in_observed_clock (events : List Event) (c1 c2 : Nat → Int)
    (h : ∀ j, j < reminderCount events → c1 j = c2 j) :
    extract_reminders events c1 = extract_reminders events c2 := by
  unfold extract_reminders
  rw [filterFuture_congr c1 c2 (allReminders events) 0
    (by intro j hj; simpa using h j hj)]

/-- C8 amended witness: `clk1` and `clk3` agree on the two reads an
extraction over `vC8` performs, so the two extraction runs coincide. -/
theorem extract_deterministic_in_observed_clock_check :
    extract_reminders [buildEvent vC8] clk1 = extract_reminders [buildEvent vC8] clk3 :=
  extract_deterministic_in_observed_clock [buildEvent vC8] clk1 clk3 (by decide)

theorem cancel_clears (s : WorkerState) (h : timerInv s) (t : Nat)
    (ht : s.reminder_task = some t) : cancelTask s.armed t = [] := by
  unfold cancelTask
  rw [List.filter_eq_nil_iff]
  intro p hp
  have h1 := h.2 p hp
  rw [ht] at h1
  simp only [Option.some.injEq] at h1
  simp [h1]

theorem armed_nil_of_task_none (s : WorkerState) (h : timerInv s)
    (hn : s.reminder_task = none) : s.armed = [] := by
  cases ha : s.armed with
  | nil => rfl
  | cons p ps =>
    have h1 := h.2 p (by rw [ha]; exact List.mem_cons_self p ps)
    rw [hn] at h1
    exact absurd h1 (by simp)

theorem timerInv_no_armed (q : List Reminder) (rt : Option Nat) (nt : Nat)
    (cs : Option (List Cal)) : timerInv ⟨q, rt, [], nt, cs⟩ := by
  refine ⟨by simp, ?_⟩
  intro p hp
  simp at hp

theorem schedule_inv (s : WorkerState) (h : timerInv s) :
    timerInv (scheduleReminderTask s) := by
  obtain ⟨q, rt, ar, nt, cs⟩ := s
  cases rt with
  | none =>
    have har : ar = [] := armed_nil_of_task_none ⟨q, none, ar, nt, cs⟩ h rfl
    subst har
    cases q with
    | nil => exact timerInv_no_armed [] none nt cs
    | cons r rest =>
      refine ⟨by simp [scheduleReminderTask], ?_⟩
      intro p hp
      simp [scheduleReminderTask] at hp
      simp [scheduleReminderTask, hp]
  | some t =>
    have har : cancelTask ar t = [] := cancel_clears ⟨q, some t, ar, nt, cs⟩ h t rfl
    cases q with
    | nil =>
      refine ⟨?_, ?_⟩
      · show (cancelTask ar t).length ≤ 1
        rw [har]
        simp
      · intro p hp
        have hp1 : p ∈ cancelTask ar t := hp
        rw [har] at hp1
        simp at hp1
    | cons r rest =>
      refine ⟨?_, ?_⟩
      · show (cancelTask ar t ++ [(nt, r.dt)]).length ≤ 1
        rw [har]
        simp
      · intro p hp
        have hp1 : p ∈ cancelTask ar t ++ [(nt, r.dt)] := hp
        rw [har] at hp1
        simp only [List.nil_append, List.mem_singleton] at hp1
        show some nt = some p.1
        rw [hp1]

theorem syncWithCals_inv (cfg : Config) (fetchEv : List Cal → Option (List Event))
    (now : Int) (s : WorkerState) (cl : List Cal) (h : timerInv s) :
    timerInv (syncWithCals cfg fetchEv now s cl).1 := by
  unfold syncWithCals
  split
  · exact h
  · split
    · exact h
    · split
      · exact h
      · split
        · exact h
        · split
          · exact h
          · exact schedule_inv _ h

theorem sync_inv (cfg : Config) (fetchCals : Option (List Cal))
    (fetchEv : List Cal → Option (List Event)) (now : Int) (s : WorkerState)
    (h : timerInv s) : timerInv (sync cfg fetchCals fetchEv now s).state := by
  cases hc : s.cals with
  | some cl =>
    have h2 := syncWithCals_inv cfg fetchEv now s cl h
    rw [sync_cached cfg fetchCals fetchEv now s cl hc]
    exact h2
  | none =>
    cases fetchCals with
    | none =>
      unfold sync
      rw [hc]
      exact h
    | some cl =>
      have h2 := syncWithCals_inv cfg fetchEv now { s with cals := some cl } cl h
      unfold sync
      rw [hc]
      exact h2

theorem drain_state_inv (sendOk : Reminder → Bool) (now : Int) (q : List Reminder)
    (rt : Option Nat) (nt : Nat) (cs : Option (List Cal)) :
    timerInv (process_reminders sendOk now ⟨q, rt, [], nt, cs⟩).state := by
  cases hdl : drainLoop sendOk now q with
  | mk q2 dc =>
    obtain ⟨d, c⟩ := dc
    simp only [process_reminders, hdl]
    split
    · exact schedule_inv _ (timerInv_no_armed _ _ _ _)
    · exact timerInv_no_armed _ _ _ _

theorem fireTimer_inv (sendOk : Reminder → Bool) (now : Int) (s : WorkerState)
    (h : timerInv s) : timerInv (fireTimer sendOk now s).state := by
  obtain ⟨q, rt, ar, nt, cs⟩ := s
  cases rt with
  | none =>
    have har : ar = [] := armed_nil_of_task_none ⟨q, none, ar, nt, cs⟩ h rfl
    subst har
    exact drain_state_inv sendOk now q none nt cs
  | some t =>
    have har : cancelTask ar t = [] := cancel_clears ⟨q, some t, ar, nt, cs⟩ h t rfl
    have he : fireTimer sendOk now ⟨q, some t, ar, nt, cs⟩ =
        process_reminders sendOk now ⟨q, some t, cancelTask ar t, nt, cs⟩ := rfl
    rw [he, har]
    exact drain_state_inv sendOk now q (some t) nt cs

theorem applyOp_inv (s : WorkerState) (op : WOp) (h : timerInv s) :
    timerInv (applyOp s op) := by
  cases op with
  | wsync cfg fc fe now => exact sync_inv cfg fc fe now s h
  | wfire ok now => exact fireTimer_inv ok now s h

theorem applyOps_inv (ops : List WOp) : ∀ s, timerInv s → timerInv (applyOps s ops) := by
  induction ops with
  | nil => intro s h; exact h
  | cons op ops ih => intro s h; exact ih _ (applyOp_inv s op h)

/-- C7: starting from the freshly initialized worker, after any sequence
of sync cycles and timer firings at most one wake-timer task is live;
moreover the reschedule procedure, run on any state satisfying the timer
invariant, first cancels the referenced timer and then: with an empty
queue it leaves no timer armed, and with a non-empty queue it arms
exactly one new timer for the queue's earliest element's fire instant and
records its handle. -/
theorem at_most_one_wake_timer (ops : List WOp) :
    (applyOps initState ops).armed.length ≤ 1 ∧
    (∀ s : WorkerState, timerInv s → s.sorted_reminders = [] →
        (scheduleReminderTask s).armed = []) ∧
    (∀ (s : WorkerState) (r : Reminder) (rest : List Reminder), timerInv s →
        s.sorted_reminders = r :: rest →
        (scheduleReminderTask s).armed = [(s.nextTaskId, r.dt)] ∧
        (scheduleReminderTask s).reminder_task = some s.nextTaskId) := by
  refine ⟨(applyOps_inv ops initState (timerInv_no_armed _ _ _ _)).1, ?_, ?_⟩
  · intro s h hq
    obtain ⟨q, rt, ar, nt, cs⟩ := s
    simp only at hq
    subst hq
    cases rt with
    | none =>
      have har : ar = [] := armed_nil_of_task_none ⟨[], none, ar, nt, cs⟩ h rfl
      subst har
      rfl
    | some t =>
      have har : cancelTask ar t = [] := cancel_clears ⟨[], some t, ar, nt, cs⟩ h t rfl
      exact har
  · intro s r rest h hq
    obtain ⟨q, rt, ar, nt, cs⟩ := s
    simp only at hq
    subst hq
    cases rt with
    | none =>
      have har : ar = [] := armed_nil_of_task_none ⟨r :: rest, none, ar, nt, cs⟩ h rfl
      subst har
      exact ⟨rfl, rfl⟩
    | some t =>
      have har : cancelTask ar t = [] := cancel_clears ⟨r :: rest, some t, ar, nt, cs⟩ h t rfl
      constructor
      · show cancelTask ar t ++ [(nt, r.dt)] = [(nt, r.dt)]
        rw [har]
        rfl
      · rfl

/-- C7 witness: one timer firing from the initial state keeps the live
count at most one, and rescheduling the steady-state worker `st1` leaves
exactly the timer for its earliest reminder. -/
theorem at_most_one_wake_timer_check :
    (applyOps initState [WOp.wfire (fun _ => true) 0]).armed.length ≤ 1 ∧
    (scheduleReminderTask st1).armed = [(1, 100)] := by
  refine ⟨(at_most_one_wake_timer [WOp.wfire (fun _ => true) 0]).1, ?_⟩
  have h := (at_most_one_wake_timer []).2.2 st1 remA []
    (by refine ⟨by simp [st1], ?_⟩
        intro p hp
        simp only [st1] at hp
        simp only [List.mem_singleton] at hp
        subst hp
        rfl) rfl
  exact h.1

end CaldavBot
